import Mathlib

/-!
# Verification of the astro-news-bot core pipeline

Shallow embedding of the core stages of the `news_bot` package
(`fetcher.py`, `dedup.py`, `summarizer.py`) and proofs of the spec's
claims about them.

Modelling conventions:
* Python strings are `String`; Python slicing `s[:n]` is by characters, so
  it is embedded as `strTake s n = String.mk (s.data.take n)`.
* Python's `str.strip()` is `String.trim`, `str.lower()` is
  `strLower` (character-wise), `str.replace(p, r)` (replace all occurrences) is
  `String.replace`, and the substring test `p in s` is infix membership of
  the character lists.
* Floating-point similarity values are embedded as rationals: every claim
  about the deduplicator only compares similarities against the threshold,
  so only the ordered-field structure matters.
* The external providers (HTTP fetch, OpenAI completion) are opaque
  call-by-call oracles `ℕ → Except ε α` (attempt number ↦ outcome); the
  embedding threads them explicitly where the Python code performs I/O.
* A Python function that can fall off the end of a `for` loop and return
  `None` is embedded with an `Option` result, `none` for that path.
-/

/-- Python `s[:n]`: the first `n` characters of `s`. -/
def strTake (s : String) (n : ℕ) : String := String.mk (s.data.take n)

/-- Python `s.lower()`: lower-case each character. -/
def strLower (s : String) : String := String.mk (s.data.map Char.toLower)

/-- Python `s.strip()`: drop whitespace from both ends. -/
def pyStrip (s : String) : String :=
  String.mk (((s.data.dropWhile Char.isWhitespace).reverse.dropWhile
    Char.isWhitespace).reverse)

def splitOnCharAux (c : Char) : List Char → List Char → List String
  | [], acc => [String.mk acc.reverse]
  | x :: xs, acc =>
      if x = c then String.mk acc.reverse :: splitOnCharAux c xs []
      else splitOnCharAux c xs (x :: acc)

/-- Python `s.split(c)` for a one-character separator. -/
def splitOnChar (c : Char) (s : String) : List String :=
  splitOnCharAux c s.data []

/-- Python `s.startswith(p)`. -/
def pyStartsWith (s p : String) : Bool := p.data.isPrefixOf s.data

/-- Fuelled scan for `pyReplace`; the fuel (initially the text length,
consumed one unit per step) only makes the recursion structural and is
never exhausted. -/
def pyReplaceAux (p r : List Char) : ℕ → List Char → List Char
  | 0, l => l
  | _ + 1, [] => []
  | fuel + 1, x :: xs =>
      if p.isPrefixOf (x :: xs) then
        r ++ pyReplaceAux p r fuel (xs.drop (p.length - 1))
      else x :: pyReplaceAux p r fuel xs

/-- Python `s.replace(p, r)` for a non-empty pattern: replace every
occurrence, left to right, without rescanning the replacement. -/
def pyReplace (s p r : String) : String :=
  String.mk (pyReplaceAux p.data r.data s.data.length s.data)

/-- Python `c in s` for a single character. -/
def pyContainsChar (s : String) (c : Char) : Bool := s.data.contains c

/-- The common article record all sources normalise into
(fields as produced in `fetcher.py` and enriched in `summarizer.py`). -/
structure Article where
  title : String := ""
  url : String := ""
  published_at : String := ""
  source : String := ""
  description : String := ""
  summary : String := ""
  bullets : List String := []
  deriving Repr, DecidableEq, Inhabited

/-! ## Deduplicator (`dedup.py`)

`NewsDeduplicator.find_duplicates` consumes the cosine-similarity matrix of
the title embeddings.  The spec's collaborator contract makes the embedding
provider deterministic for identical input, so the similarity of two
records is a function of their two titles; the embedding threads that
function (`sim : String → String → ℚ`) instead of the numpy matrix, and
`find_duplicates` takes the matrix as `simM : ℕ → ℕ → ℚ`. -/

/-- Inner loop of `find_duplicates` (dedup.py lines 60–69): for each `j` in
`js`, skip `j` if already marked, otherwise mark it when
`similarity(i,j) >= threshold`. -/
def innerScan (simM : ℕ → ℕ → ℚ) (τ : ℚ) (i : ℕ) (js : List ℕ)
    (removed : List ℕ) : List ℕ :=
  js.foldl (fun r j =>
    if j ∈ r then r
    else if τ ≤ simM i j then j :: r
    else r) removed

/-- Outer loop of `find_duplicates` (dedup.py lines 56–69): for each `i`,
skip when `i` is already marked, otherwise scan `j = i+1 .. n-1`. -/
def outerScan (simM : ℕ → ℕ → ℚ) (τ : ℚ) (n : ℕ) (is : List ℕ)
    (removed : List ℕ) : List ℕ :=
  is.foldl (fun r i =>
    if i ∈ r then r
    else innerScan simM τ i (List.range' (i + 1) (n - (i + 1))) r) removed

/-- `NewsDeduplicator.find_duplicates` (dedup.py lines 42–71): the set of
indices marked for removal (`duplicates_to_remove`, a Python set, is
embedded as the list of marked indices: every insertion is guarded by a
membership test, so the list holds each marked index once). -/
def find_duplicates (simM : ℕ → ℕ → ℚ) (τ : ℚ) (n : ℕ) : List ℕ :=
  outerScan simM τ n (List.range n) []

/-- The removal pass of `deduplicate_articles` (dedup.py lines 106–109):
`for i, article in enumerate(articles): if i not in dup: keep`. -/
def keepUnmarked (removed : List ℕ) : ℕ → List Article → List Article
  | _, [] => []
  | i, a :: rest =>
      if i ∈ removed then keepUnmarked removed (i + 1) rest
      else a :: keepUnmarked removed (i + 1) rest

/-- `NewsDeduplicator.deduplicate_articles` (dedup.py lines 73–122), with
file I/O abstracted away: embed the titles, build the similarity matrix,
mark duplicates, and keep the unmarked records in order. -/
def deduplicate_articles (sim : String → String → ℚ) (τ : ℚ)
    (articles : List Article) : List Article :=
  let simM := fun i j =>
    sim ((articles.getD i default).title) ((articles.getD j default).title)
  keepUnmarked (find_duplicates simM τ articles.length) 0 articles

/-! ## Fetcher (`fetcher.py`) -/

/-- Contiguous-sublist scan: does `nee` occur at some position of `hay`? -/
def occursInAux (nee : List Char) : List Char → Bool
  | [] => nee.isEmpty
  | c :: rest => nee.isPrefixOf (c :: rest) || occursInAux nee rest

/-- Python's substring test `w in s`, by characters. -/
def occursIn (w s : String) : Bool := occursInAux w.data s.data

/-- `self.tech_keywords['high_priority']` (fetcher.py lines 31–41). -/
def high_priority : List String :=
  ["artificial intelligence", "ai", "machine learning", "deep learning",
   "neural network",
   "gpt", "llm", "large language model", "chatgpt", "openai", "anthropic",
   "claude",
   "algorithm", "programming", "software", "technology", "tech", "startup",
   "robotics", "automation", "computer science", "data science",
   "quantum computing",
   "blockchain", "cryptocurrency", "cybersecurity", "cloud computing", "api",
   "semiconductor", "chip", "processor", "microprocessor", "gpu", "cpu",
   "app", "platform", "google", "microsoft", "apple", "meta", "tesla",
   "intel",
   "nvidia", "coding", "developer", "github", "open source", "database",
   "web development", "mobile app", "ios", "android", "linux", "windows"]

/-- `self.tech_keywords['science_keywords']` (fetcher.py lines 42–47). -/
def science_keywords : List String :=
  ["research", "study", "discovery", "breakthrough", "innovation",
   "scientific",
   "experiment", "development", "advancement", "progress", "engineering",
   "crispr", "genetics", "space", "nasa", "spacex", "climate", "energy",
   "battery", "renewable", "electric vehicle", "ev", "autonomous"]

/-- `self.tech_keywords['exclude_keywords']` (fetcher.py lines 48–52). -/
def exclude_keywords : List String :=
  ["sports", "entertainment", "celebrity", "fashion", "politics", "election",
   "weather", "crime", "accident", "death", "murder", "war", "military",
   "porn", "adult", "sex", "dating", "relationship", "love", "marriage"]

/-- The lower-cased `title description` text scored by the filter
(fetcher.py lines 57–59). -/
def filterText (title description : String) : String :=
  strLower title ++ " " ++ strLower description

/-- The accumulated keyword score (fetcher.py lines 67–75): +2 per
high-priority keyword occurring in the text, then +1 per science keyword. -/
def keywordScore (text : String) : ℕ :=
  science_keywords.foldl
    (fun s w => if occursIn w text then s + 1 else s)
    (high_priority.foldl (fun s w => if occursIn w text then s + 2 else s) 0)

/-- `NewsFetcher._is_tech_related` (fetcher.py lines 55–78). -/
def is_tech_related (title description : String) : Bool :=
  let text_content := filterText title description
  if exclude_keywords.any (fun w => occursIn w text_content) then false
  else decide (1 ≤ keywordScore text_content)

/-- A raw NewsAPI hit, with absent fields defaulted to `""` as
`article.get(key, '')` does. -/
structure NewsApiRaw where
  title : String := ""
  url : String := ""
  publishedAt : String := ""
  source_name : String := ""
  description : String := ""
  content : String := ""
  deriving Repr, DecidableEq, Inhabited

/-- The record built by `fetch_newsapi` (fetcher.py lines 122–128).  Note:
`article.get('description', '') or article.get('content', '')[:200]`
truncates only the `content` fallback; a non-empty description passes
through unchanged. -/
def newsapi_record (a : NewsApiRaw) : Article :=
  { title := a.title
    url := a.url
    published_at := a.publishedAt
    source := "NewsAPI - " ++ a.source_name
    description := if a.description ≠ "" then a.description
      else strTake a.content 200 }

/-- A raw Guardian hit; `headline`/`trailText` are the optional
`fields` entries. -/
structure GuardianRaw where
  webTitle : String := ""
  webUrl : String := ""
  webPublicationDate : String := ""
  headline : Option String := none
  trailText : Option String := none
  deriving Repr, DecidableEq, Inhabited

/-- The record built by `fetch_guardian` (fetcher.py lines 164–170). -/
def guardian_record (g : GuardianRaw) : Article :=
  { title := g.headline.getD g.webTitle
    url := g.webUrl
    published_at := g.webPublicationDate
    source := "The Guardian"
    description := strTake (g.trailText.getD "") 200 }

/-- A raw RSS entry (the fields read by `fetch_rss_feeds`). -/
structure RssEntryRaw where
  title : String := ""
  link : String := ""
  published : Option String := none
  updated : Option String := none
  summary : Option String := none
  description : Option String := none
  feedTitle : String := ""
  deriving Repr, DecidableEq, Inhabited

/-- The record built by `fetch_rss_feeds` (fetcher.py lines 221–227). -/
def rss_record (e : RssEntryRaw) : Article :=
  { title := e.title
    url := e.link
    published_at := e.published.getD (e.updated.getD "")
    source := "RSS - " ++ e.feedTitle
    description := strTake (e.summary.getD (e.description.getD "")) 200 }

/-- The loop of `NewsFetcher._retry_request` (fetcher.py lines 80–90) from
a given attempt index.  The result triple is the outcome, the number of
invocations of the operation, and the list of back-off sleeps (seconds)
performed.  `op` is the fallible operation as a call-by-call oracle.
The `.ok none` outcome is Python's implicit `None` return when the loop
body never runs (`max_retries = 0`). -/
def retryGo {α : Type} (op : ℕ → Except String α) (maxRetries attempt : ℕ) :
    Except String (Option α) × ℕ × List ℕ :=
  if attempt < maxRetries then
    match op attempt with
    | .ok a => (.ok (some a), 1, [])
    | .error e =>
        if attempt = maxRetries - 1 then (.error e, 1, [])
        else
          let rest := retryGo op maxRetries (attempt + 1)
          (rest.1, rest.2.1 + 1, 2 ^ attempt :: rest.2.2)
  else (.ok none, 0, [])
  termination_by maxRetries - attempt

/-- `NewsFetcher._retry_request` (fetcher.py lines 80–90); every caller
uses the default `max_retries=3`, so callers below pass `3` explicitly. -/
def retry_request {α : Type} (op : ℕ → Except String α)
    (maxRetries : ℕ) : Except String (Option α) × ℕ × List ℕ :=
  retryGo op maxRetries 0

/-- The error-handling shell of `NewsFetcher.fetch_newsapi`
(fetcher.py lines 94–96 and 132–136): no key → warn and return `[]`;
otherwise run the request under `_retry_request` and catch any propagated
error into `[]`.  The `Option` mirrors Python's possible `None` return. -/
def fetch_newsapi_result (hasKey : Bool)
    (op : ℕ → Except String (List Article)) : Option (List Article) :=
  if hasKey = false then some []
  else
    match (retry_request op 3).1 with
    | .ok v => v
    | .error _ => some []

/-! ## Summarizer (`summarizer.py`) -/

/-- `NewsSummarizer.__init__` (summarizer.py lines 27–32): raise iff the
credential is falsy (`os.getenv` returned `None`, or the empty string). -/
def NewsSummarizer_init (apiKey : Option String) : Except String Unit :=
  match apiKey with
  | none => .error "OPENAI_API_KEY not found in environment variables"
  | some k =>
      if k = "" then .error "OPENAI_API_KEY not found in environment variables"
      else .ok ()

/-- Tag-line splitting (summarizer.py lines 155–159 and 164–168): prefer
the full-width comma when present, else the plain comma; strip each piece
and drop the blank ones. -/
def splitTags (s : String) : List String :=
  if pyContainsChar s '，' then
    ((splitOnChar '，' s).map pyStrip).filter (fun t => t ≠ "")
  else
    ((splitOnChar ',' s).map pyStrip).filter (fun t => t ≠ "")

/-- `line.replace('摘要：', '').strip()` (summarizer.py line 151). -/
def summaryPayload (line : String) : String :=
  pyStrip (pyReplace line "摘要：" "")

/-- `line.replace('标签：', '').strip()` (summarizer.py line 154). -/
def tagsPayload (line : String) : String :=
  pyStrip (pyReplace line "标签：" "")

/-- The scanner's section state (`current_section`, summarizer.py). -/
inductive ScanSect where
  | start
  | summary
  | bullets
  deriving Repr, DecidableEq

/-- The line scan of `parse_llm_response` (summarizer.py lines 145–168),
carrying `(summary, bullets, current_section)`. -/
def scanLines (ls : List String) (summary : String) (bullets : List String)
    (sect : ScanSect) : String × List String × ScanSect :=
  match ls with
  | [] => (summary, bullets, sect)
  | l :: rest =>
      if pyStrip l = "" then scanLines rest summary bullets sect
      else if pyStartsWith (pyStrip l) "摘要：" then
        scanLines rest (summaryPayload (pyStrip l)) bullets .summary
      else if pyStartsWith (pyStrip l) "标签：" then
        scanLines rest summary (splitTags (tagsPayload (pyStrip l))) .bullets
      else if sect = .summary ∧ summary = "" then
        scanLines rest (pyStrip l) bullets sect
      else if sect = .bullets ∧ bullets = [] then
        scanLines rest summary (splitTags (pyStrip l)) sect
      else scanLines rest summary bullets sect

/-- The post-scan summary fallback (summarizer.py lines 171–178): the first
line whose stripped form is longer than 20 characters and which contains no
full-width colon, stripped; else the fixed placeholder. -/
def fallbackSummary (lines : List String) : String :=
  match lines.find?
      (fun l => decide (20 < (pyStrip l).length) && ! pyContainsChar l '：') with
  | some l => pyStrip l
  | none => "摘要解析失败"

/-- `NewsSummarizer.parse_llm_response` (summarizer.py lines 129–183). -/
def parse_llm_response (content : String) : String × List String :=
  let lines := splitOnChar '\n' (pyStrip content)
  let scanned := scanLines lines "" [] .start
  let summary := if scanned.1 = "" then fallbackSummary lines else scanned.1
  let bullets := if scanned.2.1 = [] then ["科技", "新闻"] else scanned.2.1
  (summary, bullets)

/-- The attempt loop of `NewsSummarizer.summarize_article`
(summarizer.py lines 85–127).  `respond` is the completion provider as a
call-by-call oracle (attempt number ↦ reply text or exception).  `none` is
Python's implicit `None` return when the loop body never runs
(`max_retries = 0`). -/
def summarizeLoop (respond : ℕ → Except String String) (a : Article)
    (maxRetries attempt : ℕ) : Option Article :=
  if attempt < maxRetries then
    match respond attempt with
    | .ok content =>
        let parsed := parse_llm_response (pyStrip content)
        some { a with summary := parsed.1, bullets := parsed.2 }
    | .error _ =>
        if attempt = maxRetries - 1 then
          some { a with
            summary := "无法生成摘要：" ++ strTake a.description 100 ++ "..."
            bullets := ["科技", "新闻"] }
        else summarizeLoop respond a maxRetries (attempt + 1)
  else none
  termination_by maxRetries - attempt

/-- `NewsSummarizer.summarize_article` (summarizer.py lines 72–127); the
batch always lets `max_retries` default to 3, passed explicitly below. -/
def summarize_article (respond : ℕ → Except String String) (a : Article)
    (maxRetries : ℕ) : Option Article :=
  summarizeLoop respond a maxRetries 0

/-- The batch loop of `NewsSummarizer.summarize_articles`
(summarizer.py lines 211–218), with file I/O abstracted away: summarize
each article in order with the default retry count.  `respond` gives each
article position its own provider oracle. -/
def summarize_articles (respond : ℕ → ℕ → Except String String) :
    ℕ → List Article → List (Option Article)
  | _, [] => []
  | i, a :: rest =>
      summarize_article (respond i) a 3 ::
        summarize_articles respond (i + 1) rest

/-! ### Loop invariants of `find_duplicates` -/

lemma innerScan_subset (simM : ℕ → ℕ → ℚ) (τ : ℚ) (i : ℕ) :
    ∀ (js : List ℕ) (r : List ℕ), r ⊆ innerScan simM τ i js r := by
  intro js
  induction js with
  | nil => intro r; simp [innerScan]
  | cons j js ih =>
      intro r
      simp only [innerScan, List.foldl_cons]
      split
      · exact ih r
      · split
        · exact fun x hx => ih (j :: r) (List.mem_cons_of_mem j hx)
        · exact ih r

lemma mem_innerScan (simM : ℕ → ℕ → ℚ) (τ : ℚ) (i : ℕ) :
    ∀ (js : List ℕ) (r : List ℕ) (x : ℕ),
      x ∈ innerScan simM τ i js r ↔ x ∈ r ∨ (x ∈ js ∧ τ ≤ simM i x) := by
  intro js
  induction js with
  | nil => intro r x; simp [innerScan]
  | cons j js ih =>
      intro r x
      simp only [innerScan, List.foldl_cons]
      by_cases hjr : j ∈ r
      · rw [if_pos hjr]
        rw [show (List.foldl _ r js : List ℕ) = innerScan simM τ i js r from rfl,
          ih]
        constructor
        · rintro (h | ⟨h1, h2⟩)
          · exact Or.inl h
          · exact Or.inr ⟨List.mem_cons_of_mem j h1, h2⟩
        · rintro (h | ⟨h1, h2⟩)
          · exact Or.inl h
          · rcases List.mem_cons.mp h1 with rfl | h1
            · exact Or.inl hjr
            · exact Or.inr ⟨h1, h2⟩
      · rw [if_neg hjr]
        by_cases hsim : τ ≤ simM i j
        · rw [if_pos hsim]
          rw [show (List.foldl _ (j :: r) js : List ℕ) =
            innerScan simM τ i js (j :: r) from rfl, ih]
          constructor
          · rintro (h | ⟨h1, h2⟩)
            · rcases List.mem_cons.mp h with rfl | h
              · exact Or.inr ⟨List.mem_cons_self x js, hsim⟩
              · exact Or.inl h
            · exact Or.inr ⟨List.mem_cons_of_mem j h1, h2⟩
          · rintro (h | ⟨h1, h2⟩)
            · exact Or.inl (List.mem_cons_of_mem j h)
            · rcases List.mem_cons.mp h1 with rfl | h1
              · exact Or.inl (List.mem_cons_self x r)
              · exact Or.inr ⟨h1, h2⟩
        · rw [if_neg hsim]
          rw [show (List.foldl _ r js : List ℕ) = innerScan simM τ i js r from rfl,
            ih]
          constructor
          · rintro (h | ⟨h1, h2⟩)
            · exact Or.inl h
            · exact Or.inr ⟨List.mem_cons_of_mem j h1, h2⟩
          · rintro (h | ⟨h1, h2⟩)
            · exact Or.inl h
            · rcases List.mem_cons.mp h1 with rfl | h1
              · exact absurd h2 hsim
              · exact Or.inr ⟨h1, h2⟩

lemma outerScan_subset (simM : ℕ → ℕ → ℚ) (τ : ℚ) (n : ℕ) :
    ∀ (is : List ℕ) (r : List ℕ), r ⊆ outerScan simM τ n is r := by
  intro is
  induction is with
  | nil => intro r; simp [outerScan]
  | cons i is ih =>
      intro r
      simp only [outerScan, List.foldl_cons]
      split
      · exact ih r
      · exact fun x hx => ih _ (innerScan_subset simM τ i _ r hx)

/-- Soundness of the marking pass: two indices that both survive were
compared (when the smaller one's outer iteration ran) and found below the
threshold. -/
lemma outerScan_sound (simM : ℕ → ℕ → ℚ) (τ : ℚ) (n : ℕ) :
    ∀ (is : List ℕ) (r : List ℕ) (a b : ℕ), a ∈ is →
      a ∉ outerScan simM τ n is r → b ∉ outerScan simM τ n is r →
      a < b → b < n → simM a b < τ := by
  intro is
  induction is with
  | nil => intro r a b h; simp at h
  | cons i is ih =>
      intro r a b ha hfa hfb hab hbn
      simp only [outerScan, List.foldl_cons] at hfa hfb
      rcases List.mem_cons.mp ha with rfl | ha
      · by_cases hir : a ∈ r
        · rw [if_pos hir] at hfa
          exact absurd (outerScan_subset simM τ n is r hir) hfa
        · rw [if_neg hir] at hfa hfb
          by_contra hsim
          push_neg at hsim
          have hbjs : b ∈ List.range' (a + 1) (n - (a + 1)) := by
            rw [List.mem_range'_1]
            omega
          have : b ∈ innerScan simM τ a (List.range' (a + 1) (n - (a + 1))) r :=
            (mem_innerScan simM τ a _ r b).mpr (Or.inr ⟨hbjs, hsim⟩)
          exact hfb (outerScan_subset simM τ n is _ this)
      · exact ih (if i ∈ r then r
            else innerScan simM τ i (List.range' (i + 1) (n - (i + 1))) r)
          a b ha hfa hfb hab hbn

/-- Soundness of `find_duplicates`: any two surviving indices have
similarity strictly below the threshold. -/
lemma find_duplicates_sound (simM : ℕ → ℕ → ℚ) (τ : ℚ) (n : ℕ)
    (a b : ℕ) (ha : a ∉ find_duplicates simM τ n)
    (hb : b ∉ find_duplicates simM τ n) (hab : a < b) (hbn : b < n) :
    simM a b < τ :=
  outerScan_sound simM τ n (List.range n) [] a b
    (List.mem_range.mpr (lt_trans hab hbn)) ha hb hab hbn

lemma innerScan_of_forall_lt (simM : ℕ → ℕ → ℚ) (τ : ℚ) (i : ℕ)
    (js : List ℕ) (r : List ℕ) (h : ∀ j ∈ js, simM i j < τ) :
    innerScan simM τ i js r = r := by
  induction js generalizing r with
  | nil => simp [innerScan]
  | cons j js ih =>
      simp only [innerScan, List.foldl_cons]
      have hj : ¬ τ ≤ simM i j := not_le.mpr (h j (List.mem_cons_self j js))
      have step : (if j ∈ r then r else if τ ≤ simM i j then j :: r else r) = r := by
        by_cases hjr : j ∈ r
        · rw [if_pos hjr]
        · rw [if_neg hjr, if_neg hj]
      rw [step]
      exact ih r (fun j hj => h j (List.mem_cons_of_mem _ hj))

lemma outerScan_nil_of_forall_lt (simM : ℕ → ℕ → ℚ) (τ : ℚ) (n : ℕ)
    (h : ∀ a b, a < b → b < n → simM a b < τ) :
    ∀ is : List ℕ, outerScan simM τ n is [] = [] := by
  intro is
  induction is with
  | nil => rfl
  | cons i is ih =>
      simp only [outerScan, List.foldl_cons]
      rw [if_neg (List.not_mem_nil i),
        innerScan_of_forall_lt simM τ i _ [] (fun j hj => by
          rw [List.mem_range'_1] at hj
          exact h i j (by omega) (by omega))]
      exact ih

/-- When no pair reaches the threshold, nothing is marked. -/
lemma find_duplicates_nil_of_forall_lt (simM : ℕ → ℕ → ℚ) (τ : ℚ) (n : ℕ)
    (h : ∀ a b, a < b → b < n → simM a b < τ) :
    find_duplicates simM τ n = [] :=
  outerScan_nil_of_forall_lt simM τ n h (List.range n)

lemma keepUnmarked_sublist (removed : List ℕ) :
    ∀ (k : ℕ) (l : List Article), (keepUnmarked removed k l).Sublist l := by
  intro k l
  induction l generalizing k with
  | nil => simp [keepUnmarked]
  | cons a rest ih =>
      simp only [keepUnmarked]
      split
      · exact (ih (k + 1)).cons a
      · exact (ih (k + 1)).cons₂ a

lemma keepUnmarked_nil_removed :
    ∀ (k : ℕ) (l : List Article), keepUnmarked [] k l = l := by
  intro k l
  induction l generalizing k with
  | nil => rfl
  | cons a rest ih =>
      simp only [keepUnmarked, List.not_mem_nil, if_false]
      rw [ih (k + 1)]

/-- The survivors of the removal pass, as the marked-index filter over the
positions mapped back to the records. -/
lemma keepUnmarked_eq_filter_map (removed : List ℕ) :
    ∀ (k : ℕ) (l : List Article),
      keepUnmarked removed k l =
        ((List.range' k l.length).filter (fun i => i ∉ removed)).map
          (fun j => l.getD (j - k) default) := by
  intro k l
  induction l generalizing k with
  | nil => simp [keepUnmarked]
  | cons a rest ih =>
      simp only [keepUnmarked, List.length_cons, List.range'_succ]
      by_cases hk : k ∈ removed
      · rw [if_pos hk, List.filter_cons_of_neg (by simp [hk]), ih (k + 1)]
        apply List.map_congr_left
        intro j hj
        have hj' : k + 1 ≤ j := (List.mem_range'_1.mp (List.mem_of_mem_filter hj)).1
        have hjk : j - k = (j - (k + 1)) + 1 := by omega
        rw [hjk]
        rfl
      · rw [if_neg hk, List.filter_cons_of_pos (by simp [hk]), List.map_cons,
          ih (k + 1)]
        congr 1
        · rw [Nat.sub_self]
          rfl
        · apply List.map_congr_left
          intro j hj
          have hj' : k + 1 ≤ j := (List.mem_range'_1.mp (List.mem_of_mem_filter hj)).1
          have hjk : j - k = (j - (k + 1)) + 1 := by omega
          rw [hjk]
          rfl

/-- C8: for every input sequence of articles, the Deduplicator's output is
no longer than the input and is a subsequence of it (surviving records in
original relative order, each equal to the corresponding input record). -/
theorem dedup_output_sublist (sim : String → String → ℚ) (τ : ℚ)
    (articles : List Article) :
    (deduplicate_articles sim τ articles).length ≤ articles.length ∧
    (deduplicate_articles sim τ articles).Sublist articles := by
  unfold deduplicate_articles
  exact ⟨(keepUnmarked_sublist _ 0 articles).length_le,
    keepUnmarked_sublist _ 0 articles⟩

/-- The deduplicated output, written as the surviving positions mapped back
to the records. -/
lemma deduplicate_articles_eq_map (sim : String → String → ℚ) (τ : ℚ)
    (articles : List Article) :
    deduplicate_articles sim τ articles =
      ((List.range articles.length).filter
          (fun i => i ∉ find_duplicates
            (fun i j => sim ((articles.getD i default).title)
              ((articles.getD j default).title)) τ articles.length)).map
        (fun j => articles.getD j default) := by
  unfold deduplicate_articles
  rw [keepUnmarked_eq_filter_map, List.range_eq_range']
  simp only [Nat.sub_zero]

/-- C4: the Deduplicator is idempotent.  The embedding provider is
deterministic for identical input (spec §6), so the similarity of two
records is a function `sim` of the two title strings; re-running
`deduplicate_articles` on its own output marks nothing and returns the
output unchanged. -/
theorem deduplicate_idempotent (sim : String → String → ℚ) (τ : ℚ)
    (articles : List Article) :
    deduplicate_articles sim τ (deduplicate_articles sim τ articles) =
      deduplicate_articles sim τ articles := by
  set n := articles.length with hn
  set simM := fun i j => sim ((articles.getD i default).title)
    ((articles.getD j default).title) with hsimM
  set R := find_duplicates simM τ n with hR
  set σ := (List.range n).filter (fun i => i ∉ R) with hσ
  have hsurv : deduplicate_articles sim τ articles =
      σ.map (fun j => articles.getD j default) :=
    deduplicate_articles_eq_map sim τ articles
  set survivors := σ.map (fun j => articles.getD j default) with hsv
  rw [hsurv]
  -- facts about the surviving positions
  have hσmem : ∀ x ∈ σ, x < n ∧ x ∉ R := by
    intro x hx
    rcases List.mem_filter.mp hx with ⟨hx1, hx2⟩
    exact ⟨List.mem_range.mp hx1, by simpa using hx2⟩
  have hσsorted : σ.Pairwise (· < ·) :=
    (List.pairwise_lt_range n).sublist (List.filter_sublist _)
  -- every pair of survivors is below the threshold
  have hbelow : ∀ a b : ℕ, a < b → b < survivors.length →
      sim ((survivors.getD a default).title)
        ((survivors.getD b default).title) < τ := by
    intro a b hab hb
    have hbσ : b < σ.length := by
      simpa [hsv, List.length_map] using hb
    have haσ : a < σ.length := lt_trans hab hbσ
    have hga : survivors.getD a default = articles.getD σ[a] default := by
      rw [hsv, List.getD_eq_getElem _ _ (by simpa using haσ), List.getElem_map]
    have hgb : survivors.getD b default = articles.getD σ[b] default := by
      rw [hsv, List.getD_eq_getElem _ _ (by simpa using hbσ), List.getElem_map]
    rw [hga, hgb]
    have hxa := hσmem σ[a] (σ.getElem_mem haσ)
    have hxb := hσmem σ[b] (σ.getElem_mem hbσ)
    have hlt : σ[a] < σ[b] :=
      List.pairwise_iff_getElem.mp hσsorted a b haσ hbσ hab
    exact find_duplicates_sound simM τ n σ[a] σ[b] hxa.2 hxb.2 hlt hxb.1
  -- hence the second run marks nothing
  have hnil : find_duplicates
      (fun i j => sim ((survivors.getD i default).title)
        ((survivors.getD j default).title)) τ survivors.length = [] :=
    find_duplicates_nil_of_forall_lt _ τ _ (fun a b hab hb => hbelow a b hab hb)
  show keepUnmarked _ 0 survivors = survivors
  rw [hnil]
  exact keepUnmarked_nil_removed 0 survivors

/-- C1 counterexample: with `sim(A,B) ≥ τ`, `sim(B,C) ≥ τ`, `sim(A,C) < τ`
and no other pair reaching the threshold, the Deduplicator keeps `C`: the
output is `[A, C]`, not `[A]`.  Once `B` (index 1) is marked, the outer
loop skips it (`if i in duplicates_to_remove: continue`, dedup.py line 57),
so `B` is never used as a reference point and `C` is never removed. -/
theorem dedup_forward_chaining_counterexample :
    let simC : String → String → ℚ := fun s t =>
      if s = t then 100
      else if (s = "A" ∧ t = "B") ∨ (s = "B" ∧ t = "A") ∨
          (s = "B" ∧ t = "C") ∨ (s = "C" ∧ t = "B") then 90
      else 0
    let A : Article := { title := "A", url := "u1", source := "s" }
    let B : Article := { title := "B", url := "u2", source := "s" }
    let C : Article := { title := "C", url := "u3", source := "s" }
    (85 : ℚ) ≤ simC "A" "B" ∧ (85 : ℚ) ≤ simC "B" "C" ∧
      simC "A" "C" < 85 ∧ simC "A" "C" < 85 ∧
      deduplicate_articles simC 85 [A, B, C] = [A, C] ∧
      deduplicate_articles simC 85 [A, B, C] ≠ [A] := by decide

/-- C1 amended: in the A–B, B–C similar / A–C dissimilar configuration the
Deduplicator removes only the middle record `b`; the outer loop never uses
a removed record as a cluster representative, so `c` survives next to `a`. -/
theorem dedup_keeps_nonsimilar_third (sim : String → String → ℚ) (τ : ℚ)
    (a b c : Article) (h1 : τ ≤ sim a.title b.title)
    (h2 : τ ≤ sim b.title c.title) (h3 : sim a.title c.title < τ) :
    deduplicate_articles sim τ [a, b, c] = [a, c] := by
  have h3' : ¬ τ ≤ sim a.title c.title := not_le.mpr h3
  simp [deduplicate_articles, find_duplicates, outerScan, innerScan,
    keepUnmarked, List.range_succ, List.range', h1, h3']

theorem dedup_keeps_nonsimilar_third_witness :
    deduplicate_articles
      (fun s t => if s = t then 100
        else if (s = "X" ∧ t = "Y") ∨ (s = "Y" ∧ t = "X") ∨
            (s = "Y" ∧ t = "Z") ∨ (s = "Z" ∧ t = "Y") then 90
        else 0) 85
      [{ title := "X" }, { title := "Y" }, { title := "Z" }] =
      [{ title := "X" }, { title := "Z" }] :=
  dedup_keeps_nonsimilar_third _ 85 _ _ _ (by decide) (by decide) (by decide)

/-! ### Relevance-filter theorems -/

/-- `occursIn` really is the substring (contiguous sublist) test. -/
lemma occursIn_iff_infix (w s : String) :
    occursIn w s = true ↔ List.IsInfix w.data s.data := by
  show occursInAux w.data s.data = true ↔ _
  induction s.data with
  | nil => simp [occursInAux, List.infix_nil]
  | cons c rest ih =>
      simp [occursInAux, ih, List.infix_cons_iff, List.isPrefixOf_iff_prefix]

lemma foldl_score_id (text : String) (inc : ℕ) :
    ∀ (ws : List String), (∀ w ∈ ws, occursIn w text = false) →
      ∀ acc : ℕ,
        ws.foldl (fun s w => if occursIn w text then s + inc else s) acc = acc := by
  intro ws
  induction ws with
  | nil => intro _ acc; rfl
  | cons w ws ih =>
      intro h acc
      simp only [List.foldl_cons]
      rw [if_neg (by simp [h w (List.mem_cons_self w ws)]),
        ih (fun v hv => h v (List.mem_cons_of_mem w hv)) acc]

/-- C7: the filter accepts a record iff no exclusion keyword occurs in the
lower-cased title-plus-description text and the keyword score is at least
1; in particular exclusion wins over any score, and a record matching no
keyword at all is rejected. -/
theorem is_tech_related_spec (title description : String) :
    (is_tech_related title description = true ↔
      ((∀ w ∈ exclude_keywords,
          occursIn w (filterText title description) = false) ∧
        1 ≤ keywordScore (filterText title description))) ∧
    ((∀ w ∈ high_priority, occursIn w (filterText title description) = false) →
      (∀ w ∈ science_keywords,
          occursIn w (filterText title description) = false) →
      is_tech_related title description = false) := by
  constructor
  · unfold is_tech_related
    by_cases hex :
        exclude_keywords.any (fun w => occursIn w (filterText title description)) = true
    · rw [if_pos hex]
      constructor
      · intro h; exact absurd h (by simp)
      · rintro ⟨hall, -⟩
        obtain ⟨w, hw, hocc⟩ := List.any_eq_true.mp hex
        rw [hall w hw] at hocc
        exact absurd hocc (by simp)
    · rw [if_neg hex, decide_eq_true_eq]
      constructor
      · intro h
        refine ⟨?_, h⟩
        intro w hw
        by_contra hc
        rcases Bool.eq_false_or_eq_true
          (occursIn w (filterText title description)) with hb | hb
        · exact hex (List.any_eq_true.mpr ⟨w, hw, hb⟩)
        · exact hc hb
      · exact And.right
  · intro hhp hsci
    have hs : keywordScore (filterText title description) = 0 := by
      unfold keywordScore
      rw [foldl_score_id _ 2 _ hhp 0, foldl_score_id _ 1 _ hsci 0]
    unfold is_tech_related
    by_cases hex :
        exclude_keywords.any (fun w => occursIn w (filterText title description)) = true
    · rw [if_pos hex]
    · rw [if_neg hex, hs]
      rfl

theorem is_tech_related_spec_witness :
    is_tech_related "quantum computing breakthrough" "" = true ∧
    is_tech_related "zzz" "qqq" = false := by
  constructor
  · exact (is_tech_related_spec "quantum computing breakthrough" "").1.mpr
      (by decide)
  · exact (is_tech_related_spec "zzz" "qqq").2 (by decide) (by decide)

/-! ### Description-truncation theorems -/

lemma strTake_length_le (s : String) (n : ℕ) : (strTake s n).length ≤ n := by
  show (s.data.take n).length ≤ n
  rw [List.length_take]
  exact min_le_left n s.data.length

set_option maxRecDepth 4000 in
/-- C2 counterexample: a NewsAPI hit whose description is 201 characters
long yields a record whose description is not truncated to 200
characters — the `[:200]` slice applies only to the `content` fallback. -/
theorem description_truncation_counterexample :
    ¬ ((newsapi_record
        ⟨"t", "u", "", "", String.mk (List.replicate 201 'a'), ""⟩).description.length
      ≤ 200) := by decide

/-- C2 amended: the Guardian and RSS fetchers truncate the description to
at most 200 characters; the NewsAPI fetcher passes a non-empty description
through unchanged (unbounded) and truncates only the `content` fallback
used when the description is empty. -/
theorem description_truncation (a : NewsApiRaw) (g : GuardianRaw)
    (e : RssEntryRaw) :
    (guardian_record g).description.length ≤ 200 ∧
    (rss_record e).description.length ≤ 200 ∧
    ((newsapi_record a).description = a.description ∨
      (newsapi_record a).description.length ≤ 200) := by
  refine ⟨strTake_length_le _ 200, strTake_length_le _ 200, ?_⟩
  by_cases hd : a.description = ""
  · right
    show (if a.description ≠ "" then a.description
      else strTake a.content 200).length ≤ 200
    rw [if_neg (not_not_intro hd)]
    exact strTake_length_le _ 200
  · left
    show (if a.description ≠ "" then a.description
      else strTake a.content 200) = a.description
    rw [if_pos hd]

/-! ### Retry-executor theorems -/

lemma retryGo_allfail {α : Type} (op : ℕ → Except String α) (err : ℕ → String)
    (hop : ∀ k, op k = .error (err k)) (m : ℕ) :
    ∀ d a, m - a = d + 1 → a < m →
      retryGo op m a = (.error (err (m - 1)), m - a,
        (List.range' a (m - 1 - a)).map (fun t => 2 ^ t)) := by
  intro d
  induction d with
  | zero =>
      intro a hd ham
      have ha : a = m - 1 := by omega
      subst ha
      unfold retryGo
      rw [if_pos ham, hop (m - 1)]
      dsimp only
      rw [if_pos rfl]
      have h1 : m - (m - 1) = 1 := by omega
      rw [h1, Nat.sub_self, List.range'_zero, List.map_nil]
  | succ d ih =>
      intro a hd ham
      unfold retryGo
      rw [if_pos ham, hop a]
      dsimp only
      rw [if_neg (by omega : ¬ a = m - 1),
        ih (a + 1) (by omega) (by omega)]
      have h2 : m - (a + 1) + 1 = m - a := by omega
      have h3 : m - 1 - a = (m - 1 - (a + 1)) + 1 := by omega
      simp only [h2, h3, List.range'_succ, List.map_cons]

/-- C6: an operation failing on every attempt is invoked exactly
`maxRetries` times (default 3), with a sleep of `2^attempt` seconds after
every failure but the last, and the last error is propagated; the NewsAPI
fetcher wrapping such an operation catches the propagated error and yields
the empty sequence. -/
theorem retry_exhaustion (op : ℕ → Except String (List Article))
    (err : ℕ → String) (m : ℕ) (hm : 1 ≤ m)
    (hop : ∀ k, op k = .error (err k)) :
    retry_request op m = (.error (err (m - 1)), m,
      (List.range (m - 1)).map (fun t => 2 ^ t)) ∧
    fetch_newsapi_result true op = some [] := by
  constructor
  · unfold retry_request
    rw [retryGo_allfail op err hop m (m - 1) 0 (by omega) (by omega)]
    rw [Nat.sub_zero, Nat.sub_zero, List.range_eq_range']
  · unfold fetch_newsapi_result retry_request
    rw [if_neg (by simp)]
    rw [retryGo_allfail op err hop 3 2 0 (by omega) (by omega)]

theorem retry_exhaustion_witness :
    retry_request (fun _ => (Except.error "e" : Except String (List Article))) 3 =
      (Except.error "e", 3, [1, 2]) ∧
    fetch_newsapi_result true (fun _ => Except.error "e") = some [] := by
  have h := retry_exhaustion (fun _ => Except.error "e") (fun _ => "e") 3
    (by norm_num) (fun k => rfl)
  exact ⟨h.1, h.2⟩

/-! ### Summarizer theorems -/

lemma fallbackSummary_ne (lines : List String) : fallbackSummary lines ≠ "" := by
  unfold fallbackSummary
  cases hf : lines.find?
      (fun l => decide (20 < (pyStrip l).length) && ! pyContainsChar l '：') with
  | none => decide
  | some l =>
      have hp := List.find?_some hf
      have h20 : 20 < (pyStrip l).length := by
        simp only [Bool.and_eq_true, decide_eq_true_eq] at hp
        exact hp.1
      show pyStrip l ≠ ""
      intro he
      rw [he] at h20
      exact (by decide : ¬ (20 < ("" : String).length)) h20

lemma parse_llm_response_props (content : String) :
    (parse_llm_response content).1 ≠ "" ∧ (parse_llm_response content).2 ≠ [] := by
  unfold parse_llm_response
  constructor
  · dsimp only
    by_cases h :
        (scanLines (splitOnChar '\n' (pyStrip content)) "" [] ScanSect.start).1 = ""
    · rw [if_pos h]
      exact fallbackSummary_ne _
    · rw [if_neg h]
      exact h
  · dsimp only
    by_cases h :
        (scanLines (splitOnChar '\n' (pyStrip content)) "" [] ScanSect.start).2.1 = []
    · rw [if_pos h]
      exact List.cons_ne_nil _ _
    · rw [if_neg h]
      exact h

lemma fallback_article_summary_ne (x : String) :
    "无法生成摘要：" ++ x ++ "..." ≠ "" := by
  intro h
  have hl := congrArg String.length h
  rw [String.length_append, String.length_append] at hl
  have h1 : ("无法生成摘要：" : String).length = 7 := rfl
  have h2 : ("..." : String).length = 3 := rfl
  have h3 : ("" : String).length = 0 := rfl
  rw [h1, h2, h3] at hl
  omega

/-- Each article is always emitted: with a parsed non-empty summary and
non-empty tag list on any provider success, or the fallback on three
failures; the non-summary fields are copied from the input record. -/
lemma summarize_article_spec (respond : ℕ → Except String String)
    (a : Article) :
    ∃ a', summarize_article respond a 3 = some a' ∧ a'.summary ≠ "" ∧
      a'.bullets ≠ [] ∧ a'.title = a.title ∧ a'.url = a.url ∧
      a'.published_at = a.published_at ∧ a'.source = a.source ∧
      a'.description = a.description := by
  rcases h0 : respond 0 with e0 | c0
  · rcases h1 : respond 1 with e1 | c1
    · rcases h2 : respond 2 with e2 | c2
      · exact ⟨{ a with
            summary := "无法生成摘要：" ++ strTake a.description 100 ++ "..."
            bullets := ["科技", "新闻"] },
          by simp [summarize_article, summarizeLoop, h0, h1, h2],
          fallback_article_summary_ne _, by simp, rfl, rfl, rfl, rfl, rfl⟩
      · exact ⟨{ a with
            summary := (parse_llm_response (pyStrip c2)).1
            bullets := (parse_llm_response (pyStrip c2)).2 },
          by simp [summarize_article, summarizeLoop, h0, h1, h2],
          (parse_llm_response_props (pyStrip c2)).1,
          (parse_llm_response_props (pyStrip c2)).2, rfl, rfl, rfl, rfl, rfl⟩
    · exact ⟨{ a with
          summary := (parse_llm_response (pyStrip c1)).1
          bullets := (parse_llm_response (pyStrip c1)).2 },
        by simp [summarize_article, summarizeLoop, h0, h1],
        (parse_llm_response_props (pyStrip c1)).1,
        (parse_llm_response_props (pyStrip c1)).2, rfl, rfl, rfl, rfl, rfl⟩
  · exact ⟨{ a with
        summary := (parse_llm_response (pyStrip c0)).1
        bullets := (parse_llm_response (pyStrip c0)).2 },
      by simp [summarize_article, summarizeLoop, h0],
      (parse_llm_response_props (pyStrip c0)).1,
      (parse_llm_response_props (pyStrip c0)).2, rfl, rfl, rfl, rfl, rfl⟩

/-- C3: the batch returns one output per input article, in order, each
present (`some`) with a non-empty summary and at least one tag, for every
provider oracle — in particular no per-article provider failure escapes
the batch; and construction fails exactly when the API credential is
missing (absent or empty). -/
theorem summarize_batch_contract :
    (∀ (respond : ℕ → ℕ → Except String String) (i : ℕ)
        (articles : List Article),
      (summarize_articles respond i articles).length = articles.length ∧
      List.Forall₂ (fun a oa => ∃ a', oa = some a' ∧ a'.summary ≠ "" ∧
          1 ≤ a'.bullets.length ∧ a'.title = a.title ∧ a'.url = a.url ∧
          a'.published_at = a.published_at ∧ a'.source = a.source ∧
          a'.description = a.description)
        articles (summarize_articles respond i articles)) ∧
    (∀ apiKey : Option String,
      (∃ e, NewsSummarizer_init apiKey = .error e) ↔
        (apiKey = none ∨ apiKey = some "")) := by
  constructor
  · intro respond i articles
    induction articles generalizing i with
    | nil => exact ⟨rfl, List.Forall₂.nil⟩
    | cons a rest ih =>
        obtain ⟨a', ha', hs, hb, ht, hu, hp, hsrc, hd⟩ :=
          summarize_article_spec (respond i) a
        refine ⟨?_, ?_⟩
        · simp only [summarize_articles, List.length_cons, (ih (i + 1)).1]
        · exact List.Forall₂.cons
            ⟨a', ha', hs, List.length_pos.mpr hb, ht, hu, hp, hsrc, hd⟩
            ((ih (i + 1)).2)
  · intro apiKey
    cases apiKey with
    | none =>
        constructor
        · intro _; exact Or.inl rfl
        · intro _; exact ⟨_, rfl⟩
    | some k =>
        by_cases hk : k = ""
        · subst hk
          simp [NewsSummarizer_init]
        · simp [NewsSummarizer_init, hk]

theorem summarize_batch_contract_witness :
    (summarize_articles (fun _ _ => Except.error "x") 0
      [(⟨"t", "u", "p", "s", "d", "", []⟩ : Article)]).length = 1 ∧
    ((some "" : Option String) = none ∨ (some "" : Option String) = some "") :=
  ⟨(summarize_batch_contract.1 (fun _ _ => Except.error "x") 0 _).1,
    (summarize_batch_contract.2 (some "")).mp ⟨_, rfl⟩⟩

/-- C9: when every attempt for one article fails, the batch emits that
article with the fallback summary built from the first 100 characters of
its description and the generic default tags, and goes on to the
remaining articles. -/
theorem summarize_fallback_continues (respond : ℕ → ℕ → Except String String)
    (i : ℕ) (a : Article) (rest : List Article)
    (h : ∀ k, k < 3 → ∃ e, respond i k = Except.error e) :
    summarize_articles respond i (a :: rest) =
      some { a with
        summary := "无法生成摘要：" ++ strTake a.description 100 ++ "..."
        bullets := ["科技", "新闻"] } ::
      summarize_articles respond (i + 1) rest := by
  obtain ⟨e0, h0⟩ := h 0 (by norm_num)
  obtain ⟨e1, h1⟩ := h 1 (by norm_num)
  obtain ⟨e2, h2⟩ := h 2 (by norm_num)
  simp [summarize_articles, summarize_article, summarizeLoop, h0, h1, h2]

theorem summarize_fallback_continues_witness :
    summarize_articles (fun _ _ => Except.error "x") 0
      [(⟨"", "", "", "", "d", "", []⟩ : Article)] =
      [some (⟨"", "", "", "", "d",
        "无法生成摘要：" ++ strTake "d" 100 ++ "...", ["科技", "新闻"]⟩ : Article)] :=
  summarize_fallback_continues (fun _ _ => Except.error "x") 0 _ []
    (fun k _ => ⟨"x", rfl⟩)

/-- Without any marker line, the scan leaves the initial state untouched:
no branch other than the marker branches can fire from section `start`. -/
lemma scanLines_no_marker :
    ∀ ls : List String,
      (∀ l ∈ ls, pyStartsWith (pyStrip l) "摘要：" = false ∧
        pyStartsWith (pyStrip l) "标签：" = false) →
      scanLines ls "" [] ScanSect.start = ("", [], ScanSect.start) := by
  intro ls
  induction ls with
  | nil => intro _; rfl
  | cons l rest ih =>
      intro h
      obtain ⟨h1, h2⟩ := h l (List.mem_cons_self l rest)
      have hrest := fun x hx => h x (List.mem_cons_of_mem l hx)
      simp only [scanLines]
      by_cases c1 : pyStrip l = ""
      · rw [if_pos c1]
        exact ih hrest
      · rw [if_neg c1,
          if_neg (show ¬ (pyStartsWith (pyStrip l) "摘要：" = true) by simp [h1]),
          if_neg (show ¬ (pyStartsWith (pyStrip l) "标签：" = true) by simp [h2]),
          if_neg (show ¬ (ScanSect.start = ScanSect.summary ∧ True)
            by simp),
          if_neg (show ¬ (ScanSect.start = ScanSect.bullets ∧ True)
            by simp)]
        exact ih hrest

/-- C5: on a reply with no summary-marker and no tags-marker line, the
parsed summary is the post-scan fallback (first stripped line longer than
20 characters containing no full-width colon, else the fixed placeholder)
and the tags are the fixed two-element default. -/
theorem parse_fallback_no_markers (content : String)
    (h : ∀ l ∈ splitOnChar '\n' (pyStrip content),
      pyStartsWith (pyStrip l) "摘要：" = false ∧
      pyStartsWith (pyStrip l) "标签：" = false) :
    (parse_llm_response content).1 =
      fallbackSummary (splitOnChar '\n' (pyStrip content)) ∧
    (parse_llm_response content).2 = ["科技", "新闻"] := by
  unfold parse_llm_response
  dsimp only
  rw [scanLines_no_marker _ h]
  exact ⟨rfl, rfl⟩

theorem parse_fallback_no_markers_witness :
    (parse_llm_response "这条纯文本行没有任何标点而且长度超过二十个字符哦哦").1 =
      "这条纯文本行没有任何标点而且长度超过二十个字符哦哦" ∧
    (parse_llm_response "这条纯文本行没有任何标点而且长度超过二十个字符哦哦").2 =
      ["科技", "新闻"] :=
  ⟨(parse_fallback_no_markers
      "这条纯文本行没有任何标点而且长度超过二十个字符哦哦" (by decide)).1.trans
    (by decide),
   (parse_fallback_no_markers
      "这条纯文本行没有任何标点而且长度超过二十个字符哦哦" (by decide)).2⟩

lemma scanLines_append (xs ys : List String) :
    ∀ (s : String) (b : List String) (c : ScanSect),
      scanLines (xs ++ ys) s b c =
        scanLines ys (scanLines xs s b c).1 (scanLines xs s b c).2.1
          (scanLines xs s b c).2.2 := by
  induction xs with
  | nil => intro s b c; rfl
  | cons x xs ih =>
      intro s b c
      simp only [List.cons_append, scanLines]
      split_ifs <;> exact ih _ _ _

/-- Once the scanned summary is non-empty, later lines without a
summary-marker never change it. -/
lemma scanLines_summary_stable :
    ∀ (ys : List String) (s : String) (b : List String) (c : ScanSect),
      s ≠ "" → (∀ l ∈ ys, pyStartsWith (pyStrip l) "摘要：" = false) →
      (scanLines ys s b c).1 = s := by
  intro ys
  induction ys with
  | nil => intro s b c _ _; rfl
  | cons l rest ih =>
      intro s b c hs h
      have h1 := h l (List.mem_cons_self l rest)
      have hrest := fun x hx => h x (List.mem_cons_of_mem l hx)
      simp only [scanLines]
      split_ifs with c1 c2 c3 c4 c5
      · exact ih s b c hs hrest
      · exact absurd c2 (by simp [h1])
      · exact ih s _ _ hs hrest
      · exact absurd c4.2 hs
      · exact ih s _ _ hs hrest
      · exact ih s b c hs hrest

/-- Once the scanned tag list is non-empty, later lines without a
tags-marker never change it. -/
lemma scanLines_bullets_stable :
    ∀ (ys : List String) (s : String) (b : List String) (c : ScanSect),
      b ≠ [] → (∀ l ∈ ys, pyStartsWith (pyStrip l) "标签：" = false) →
      (scanLines ys s b c).2.1 = b := by
  intro ys
  induction ys with
  | nil => intro s b c _ _; rfl
  | cons l rest ih =>
      intro s b c hb h
      have h1 := h l (List.mem_cons_self l rest)
      have hrest := fun x hx => h x (List.mem_cons_of_mem l hx)
      simp only [scanLines]
      split_ifs with c1 c2 c3 c4 c5
      · exact ih s b c hb hrest
      · exact ih _ b _ hb hrest
      · exact absurd c3 (by simp [h1])
      · exact ih _ b _ hb hrest
      · exact absurd c5.2 hb
      · exact ih s b c hb hrest

/-- C10 counterexample: a reply with two summary-marker lines, the last
with an empty payload.  The parser returns the fixed placeholder — not the
summary taken from the last marker line (whose payload is empty), and not
the first line's payload either. -/
theorem parse_last_marker_counterexample :
    ((splitOnChar '\n' (pyStrip "摘要：这是第一条足够长的新闻摘要内容\n摘要：")).countP
        (fun l => pyStartsWith (pyStrip l) "摘要：") = 2) ∧
    (parse_llm_response "摘要：这是第一条足够长的新闻摘要内容\n摘要：").1 =
      "摘要解析失败" ∧
    summaryPayload "摘要：" = "" ∧
    (parse_llm_response "摘要：这是第一条足够长的新闻摘要内容\n摘要：").1 ≠
      summaryPayload "摘要：" ∧
    (parse_llm_response "摘要：这是第一条足够长的新闻摘要内容\n摘要：").1 ≠
      summaryPayload "摘要：这是第一条足够长的新闻摘要内容" := by decide

/-- C10 amended: every summary-marker (tags-marker) line unconditionally
overwrites the scanned summary (tag list); when the last such marker line
carries a non-empty payload, the parser returns exactly that payload. -/
theorem parse_last_marker_wins :
    (∀ (content : String) (pre post : List String) (l : String),
        splitOnChar '\n' (pyStrip content) = pre ++ l :: post →
        pyStartsWith (pyStrip l) "摘要：" = true →
        summaryPayload (pyStrip l) ≠ "" →
        (∀ x ∈ post, pyStartsWith (pyStrip x) "摘要：" = false) →
        (parse_llm_response content).1 = summaryPayload (pyStrip l)) ∧
    (∀ (content : String) (pre post : List String) (l : String),
        splitOnChar '\n' (pyStrip content) = pre ++ l :: post →
        pyStartsWith (pyStrip l) "摘要：" = false →
        pyStartsWith (pyStrip l) "标签：" = true →
        splitTags (tagsPayload (pyStrip l)) ≠ [] →
        (∀ x ∈ post, pyStartsWith (pyStrip x) "标签：" = false) →
        (parse_llm_response content).2 = splitTags (tagsPayload (pyStrip l))) := by
  constructor
  · intro content pre post l hsplit hmark hpay hpost
    unfold parse_llm_response
    dsimp only
    rw [hsplit, scanLines_append pre (l :: post)]
    have hne : ¬ pyStrip l = "" := by
      intro he
      rw [he] at hmark
      exact absurd hmark (by decide)
    simp only [scanLines]
    rw [if_neg hne, if_pos hmark,
      scanLines_summary_stable post (summaryPayload (pyStrip l)) _ _ hpay hpost,
      if_neg hpay]
  · intro content pre post l hsplit hnosum hmark hpay hpost
    unfold parse_llm_response
    dsimp only
    rw [hsplit, scanLines_append pre (l :: post)]
    have hne : ¬ pyStrip l = "" := by
      intro he
      rw [he] at hmark
      exact absurd hmark (by decide)
    simp only [scanLines]
    have hns : ¬ (pyStartsWith (pyStrip l) "摘要：" = true) := by simp [hnosum]
    rw [if_neg hne, if_neg hns, if_pos hmark,
      scanLines_bullets_stable post _ (splitTags (tagsPayload (pyStrip l))) _
        hpay hpost,
      if_neg hpay]

theorem parse_last_marker_wins_witness :
    (parse_llm_response "摘要：旧的摘要内容是这一条\n摘要：新的摘要内容是这一条哦").1 =
      "新的摘要内容是这一条哦" ∧
    (parse_llm_response "标签：旧标签\n标签：新标签甲，新标签乙").2 =
      ["新标签甲", "新标签乙"] :=
  ⟨(parse_last_marker_wins.1 "摘要：旧的摘要内容是这一条\n摘要：新的摘要内容是这一条哦"
      ["摘要：旧的摘要内容是这一条"] [] "摘要：新的摘要内容是这一条哦"
      (by decide) (by decide) (by decide) (by decide)).trans (by decide),
   (parse_last_marker_wins.2 "标签：旧标签\n标签：新标签甲，新标签乙"
      ["标签：旧标签"] [] "标签：新标签甲，新标签乙"
      (by decide) (by decide) (by decide) (by decide) (by decide)).trans
    (by decide)⟩
